import Mathlib

/-!
Shallow embedding of the CCWebSocket bridge (src/src/websocket-bridge.ts).

The class keeps a Map from clientId to the live connection handle
(insertion-ordered, unique keys), a nullable server handle (modelled as a
Bool flag), and the immutable config.  The transport layer (Bun.serve) is
an external collaborator: it delivers open/message/close/error events and
exposes on each handle a send that may throw, a readyState, and a
metadata slot (ws.data).  We model a handle by its identity, its
readyState at call time, whether a write against it succeeds at call
time, and the metadata slot.  JSON payloads are modelled by an inductive
Json value; JSON.stringify / JSON.parse are modelled by an executable
serializer and parser over that type (defined below the state machine).
Side effects (writes, console warnings, user-handler invocations) are
recorded in an event trace.
-/

namespace CC

/-- JSON values (numbers restricted to integers, as used by this protocol:
timestamps and arbitrary structural payloads). -/
inductive Json where
  | null : Json
  | bool (b : Bool) : Json
  | num (n : Int) : Json
  | str (s : String) : Json
  | arr (elems : List Json) : Json
  | obj (fields : List (String × Json)) : Json

/-- First binding of a key in an object's field list (JS property lookup;
the serializer never emits duplicate keys). -/
def lookupField : List (String × Json) → String → Option Json
  | [], _ => none
  | (k, v) :: rest, key => if k = key then some v else lookupField rest key

/-- JS property access `j.key` on a parsed JSON value: an object yields the
bound value (none models `undefined`); primitives yield `undefined`.
Access on `null` throws in JS; callers model that case separately. -/
def jget : Json → String → Option Json
  | Json.obj fields, key => lookupField fields key
  | _, _ => none

/-- The metadata stashed on a handle by handleOpen:
`ws.data = { clientId, connectedAt }`. -/
structure WSData where
  clientId : String
  connectedAt : Nat

/-- A transport connection handle as the bridge sees it at one call:
identity, `readyState` (1 = OPEN), whether `ws.send` succeeds now, and the
`ws.data` metadata slot. -/
structure Handle where
  id : Nat
  readyState : Nat
  sendOk : Bool
  wsData : Option WSData

/-- The user-supplied handler set: which optional slots are set, and (for
the inbound handlers, which run inside handleMessage's try) whether the
invocation throws. -/
structure Handlers where
  onMessageSet : Bool
  onMessageThrows : Bool
  onCustomSet : Bool
  onCustomThrows : Bool
  onConnectSet : Bool
  onDisconnectSet : Bool

/-- State of a CCWebSocket instance: `this.server !== null`, the
`this.clients` Map (insertion-ordered association list with unique keys),
and the resolved immutable config. -/
structure BridgeState where
  serverRunning : Bool
  clients : List (String × Handle)
  port : Nat
  host : String

/-- The ClientMessage record built in handleMessage: `data.type` and
`data.data` may be `undefined` (none). -/
structure ClientMessage where
  type : Option Json
  data : Option Json
  timestamp : Nat
  clientId : String

/-- Observable effects of one bridge operation, in order. -/
inductive Event where
  | sent (connId : Nat) (payload : Json) : Event
  | sendFailed (connId : Nat) : Event
  | warn : Event
  | onMessage (m : ClientMessage) : Event
  | onCustomMessage (ty : Option Json) (d : Option Json) (clientId : String) : Event
  | onClientConnect (clientId : String) : Event
  | onClientDisconnect (clientId : String) : Event
  | wsClose (connId : Nat) (code : Nat) (reason : String) : Event

/-- `Map.set`: overwrite in place if the key exists, else append. -/
def mapSet (m : List (String × Handle)) (k : String) (v : Handle) : List (String × Handle) :=
  match m with
  | [] => [(k, v)]
  | (k0, v0) :: rest => if k0 = k then (k, v) :: rest else (k0, v0) :: mapSet rest k v

/-- `Map.get`. -/
def mapGet (m : List (String × Handle)) (k : String) : Option Handle :=
  match m with
  | [] => none
  | (k0, v0) :: rest => if k0 = k then some v0 else mapGet rest k

/-- `Map.delete` (keys are unique in a JS Map). -/
def mapDelete (m : List (String × Handle)) (k : String) : List (String × Handle) :=
  match m with
  | [] => []
  | (k0, v0) :: rest => if k0 = k then rest else (k0, v0) :: mapDelete rest k

/-- generateClientId: `client_` + Date.now() + `_` + random suffix.  The
two oracles (current millisecond, Math.random suffix) are inputs. -/
def generateClientId (nowMs : Nat) (rand : String) : String :=
  "client_" ++ toString nowMs ++ "_" ++ rand

/-- Serialization of a WebSocketMessage envelope to JSON: the clientId
field is present only when set (unicast). -/
def envelope (ty : String) (d : Json) (timestamp : Nat) (clientId : Option String) : Json :=
  Json.obj ([("type", Json.str ty), ("data", d), ("timestamp", Json.num (Int.ofNat timestamp))] ++
    (match clientId with
     | some c => [("clientId", Json.str c)]
     | none => []))

/-- The broadcast envelope built by send(): no clientId field. -/
def broadcastEnvelope (d : Json) (ty : String) (now : Nat) : Json :=
  envelope ty d now none

/-- The unicast envelope built by sendToClient(): carries the clientId. -/
def unicastEnvelope (clientId : String) (d : Json) (ty : String) (now : Nat) : Json :=
  envelope ty d now (some clientId)

/-- The welcome envelope sent by handleOpen. -/
def connectedEnvelope (clientId : String) (now : Nat) : Json :=
  Json.obj [("type", Json.str "connected"),
            ("data", Json.obj [("clientId", Json.str clientId),
                               ("message", Json.str "Connected to CC WebSocket server"),
                               ("timestamp", Json.num (Int.ofNat now))]),
            ("timestamp", Json.num (Int.ofNat now))]

/-- The heartbeat reply envelope of handleMessage. -/
def pongEnvelope (now : Nat) : Json :=
  Json.obj [("type", Json.str "pong"),
            ("data", Json.obj [("timestamp", Json.num (Int.ofNat now))]),
            ("timestamp", Json.num (Int.ofNat now))]

/-- The error reply envelope of handleMessage (both for parse failures and
for exceptions thrown by the dispatched handlers). -/
def errorEnvelope (now : Nat) : Json :=
  Json.obj [("type", Json.str "error"),
            ("data", Json.obj [("message", Json.str "Invalid message format"),
                               ("timestamp", Json.num (Int.ofNat now))]),
            ("timestamp", Json.num (Int.ofNat now))]

/-- `ws.data?.clientId || 'unknown'`: the `||` also maps an empty string
to the sentinel. -/
def resolveClientId (ws : Handle) : String :=
  match ws.wsData with
  | some d => if d.clientId = "" then "unknown" else d.clientId
  | none => "unknown"

/-- handleOpen: generate an id, stash metadata on the handle, register it,
fire onClientConnect, then try to send the welcome envelope; a welcome
write failure is only logged. -/
def handleOpen (st : BridgeState) (ws : Handle) (hs : Handlers) (now : Nat) (rand : String) :
    BridgeState × List Event :=
  let clientId := generateClientId now rand
  let ws' : Handle := { ws with wsData := some ⟨clientId, now⟩ }
  let st' := { st with clients := mapSet st.clients clientId ws' }
  let connectEvs := if hs.onConnectSet then [Event.onClientConnect clientId] else []
  let sendEvs := if ws.sendOk then [Event.sent ws.id (connectedEnvelope clientId now)]
                 else [Event.sendFailed ws.id, Event.warn]
  (st', connectEvs ++ sendEvs)

/-- handleClose: `ws.data?.clientId` then `if (clientId)` — the guard
skips both an unset slot and an empty string. -/
def handleClose (st : BridgeState) (ws : Handle) (hs : Handlers) : BridgeState × List Event :=
  match ws.wsData with
  | none => (st, [])
  | some d =>
    if d.clientId = "" then (st, [])
    else ({ st with clients := mapDelete st.clients d.clientId },
          if hs.onDisconnectSet then [Event.onClientDisconnect d.clientId] else [])

/-- handleError: resolves `ws.data?.clientId || 'unknown'` and then tests
`if (clientId)` — that test can only fail on an empty string, which the
`|| 'unknown'` default already excludes. -/
def handleError (st : BridgeState) (ws : Handle) (hs : Handlers) : BridgeState × List Event :=
  let clientId := resolveClientId ws
  if clientId = "" then (st, [])
  else ({ st with clients := mapDelete st.clients clientId },
        if hs.onDisconnectSet then [Event.onClientDisconnect clientId] else [])

/-- stop(): early return when the server handle is null; otherwise close
every registered connection, clear the Map, null the server handle. -/
def stop (st : BridgeState) : BridgeState × List Event :=
  if st.serverRunning = false then (st, [])
  else ({ st with serverRunning := false, clients := [] },
        st.clients.map (fun e => Event.wsClose e.2.id 1000 "Server shutting down"))

/-- getStatus() snapshot. -/
structure WebSocketStatus where
  isRunning : Bool
  connectedClients : Nat
  port : Nat
  host : String

def getStatus (st : BridgeState) : WebSocketStatus :=
  ⟨st.serverRunning, st.clients.length, st.port, st.host⟩

/-- The for-loop of send(): for each entry in Map order, write to open
handles; a throwing write is logged and deletes that entry; closed handles
are skipped and kept.  Returns the surviving Map and the event trace. -/
def sendLoop (payload : Json) : List (String × Handle) → List (String × Handle) × List Event
  | [] => ([], [])
  | (cid, ws) :: rest =>
    let r := sendLoop payload rest
    if ws.readyState = 1 then
      if ws.sendOk then ((cid, ws) :: r.1, Event.sent ws.id payload :: r.2)
      else (r.1, Event.sendFailed ws.id :: Event.warn :: r.2)
    else ((cid, ws) :: r.1, r.2)

/-- send(data, type): warn-and-return when the server is not running,
otherwise serialize one broadcast envelope and run the delivery loop. -/
def send (st : BridgeState) (d : Json) (ty : String) (now : Nat) : BridgeState × List Event :=
  if st.serverRunning = false then (st, [Event.warn])
  else
    let r := sendLoop (broadcastEnvelope d ty now) st.clients
    ({ st with clients := r.1 }, r.2)

/-- sendToClient(clientId, data, type): warn-and-return when not running
or when the id is unknown; otherwise write the unicast envelope only if
the handle is open; a throwing write is logged and deletes the entry. -/
def sendToClient (st : BridgeState) (clientId : String) (d : Json) (ty : String) (now : Nat) :
    BridgeState × List Event :=
  if st.serverRunning = false then (st, [Event.warn])
  else
    match mapGet st.clients clientId with
    | none => (st, [Event.warn])
    | some ws =>
      if ws.readyState = 1 then
        if ws.sendOk then (st, [Event.sent ws.id (unicastEnvelope clientId d ty now)])
        else ({ st with clients := mapDelete st.clients clientId },
              [Event.sendFailed ws.id, Event.warn])
      else (st, [])

/-- `data.type === 'ping'` on the parsed value. -/
def isPing : Option Json → Bool
  | some (Json.str s) => s = "ping"
  | _ => false

/-- Handler dispatch at the end of handleMessage's try block: invoke
onMessage then onCustomMessage when set; a throw aborts the rest of the
block.  Returns the events and whether the block threw. -/
def dispatchHandlers (hs : Handlers) (ty dd : Option Json) (now : Nat) (clientId : String) :
    List Event × Bool :=
  let mEvs := if hs.onMessageSet then [Event.onMessage ⟨ty, dd, now, clientId⟩] else []
  if hs.onMessageSet && hs.onMessageThrows then (mEvs, true)
  else
    let cEvs := if hs.onCustomSet then [Event.onCustomMessage ty dd clientId] else []
    if hs.onCustomSet && hs.onCustomThrows then (mEvs ++ cEvs, true)
    else (mEvs ++ cEvs, false)

/-! ## JSON serialization (JSON.stringify / JSON.parse model)

The transport carries text frames.  `jstring` is the serializer applied by
the bridge to every outbound envelope; `jparse` is the parser applied by
handleMessage to every inbound frame (strict: whole input, no surrounding
whitespace — the serializer emits none). -/

def lbrace : Char := Char.ofNat 123

def rbrace : Char := Char.ofNat 125

/-- Escape a character inside a JSON string literal. -/
def escapeChar (c : Char) : List Char :=
  if c = '"' then ['\\', '"']
  else if c = '\\' then ['\\', '\\']
  else [c]

def escapeList : List Char → List Char
  | [] => []
  | c :: rest => escapeChar c ++ escapeList rest

def digitChar (n : Nat) : Char := Char.ofNat (48 + n)

/-- Decimal digits, most significant first; structurally recursive on a
fuel bound (any fuel above the value itself is enough). -/
def natToDigitsAux : Nat → Nat → List Char
  | 0, _ => []
  | fuel + 1, n =>
    if n < 10 then [digitChar n]
    else natToDigitsAux fuel (n / 10) ++ [digitChar (n % 10)]

/-- Decimal digits of a natural number, most significant first. -/
def natToDigits (n : Nat) : List Char := natToDigitsAux (n + 1) n

def intToChars : Int → List Char
  | Int.ofNat n => natToDigits n
  | Int.negSucc m => '-' :: natToDigits (m + 1)

mutual

/-- Serialize a JSON value (JSON.stringify, which emits no whitespace). -/
def jstring : Json → List Char
  | Json.null => ['n', 'u', 'l', 'l']
  | Json.bool true => ['t', 'r', 'u', 'e']
  | Json.bool false => ['f', 'a', 'l', 's', 'e']
  | Json.num n => intToChars n
  | Json.str s => '"' :: (escapeList s.data ++ ['"'])
  | Json.arr es => '[' :: (jstringElems es ++ [']'])
  | Json.obj fs => lbrace :: (jstringFields fs ++ [rbrace])

def jstringElems : List Json → List Char
  | [] => []
  | [e] => jstring e
  | e :: e2 :: rest => jstring e ++ (',' :: jstringElems (e2 :: rest))

def jstringFields : List (String × Json) → List Char
  | [] => []
  | [(k, v)] => '"' :: (escapeList k.data ++ ('"' :: ':' :: jstring v))
  | (k, v) :: f2 :: rest =>
    ('"' :: (escapeList k.data ++ ('"' :: ':' :: jstring v))) ++ (',' :: jstringFields (f2 :: rest))

end

def isDigit (c : Char) : Bool := 48 ≤ c.toNat && c.toNat ≤ 57

def digitVal (c : Char) : Nat := c.toNat - 48

/-- Consume leading decimal digits, folding them onto `acc`. -/
def readDigits : List Char → Nat → Nat × List Char
  | [], acc => (acc, [])
  | c :: rest, acc => if isDigit c then readDigits rest (acc * 10 + digitVal c) else (acc, c :: rest)

/-- Parse a JSON natural-number literal: at least one digit. -/
def pNum : List Char → Option (Nat × List Char)
  | [] => none
  | c :: rest => if isDigit c then some (readDigits rest (digitVal c)) else none

/-- Parse the body of a JSON string literal (opening quote consumed):
a backslash escapes the next character, an unescaped quote terminates. -/
def pStringChars : List Char → Option (List Char × List Char)
  | [] => none
  | c :: rest =>
    if c = '"' then some ([], rest)
    else if c = '\\' then
      match rest with
      | [] => none
      | e :: rest2 =>
        match pStringChars rest2 with
        | some (s, rem) => some (e :: s, rem)
        | none => none
    else
      match pStringChars rest with
      | some (s, rem) => some (c :: s, rem)
      | none => none

mutual

/-- Fuel-indexed JSON value parser; returns the value and the unconsumed
suffix. -/
def pVal : Nat → List Char → Option (Json × List Char)
  | 0, _ => none
  | _ + 1, [] => none
  | fuel + 1, c :: rest =>
    if c = 'n' then
      match rest with
      | 'u' :: 'l' :: 'l' :: r => some (Json.null, r)
      | _ => none
    else if c = 't' then
      match rest with
      | 'r' :: 'u' :: 'e' :: r => some (Json.bool true, r)
      | _ => none
    else if c = 'f' then
      match rest with
      | 'a' :: 'l' :: 's' :: 'e' :: r => some (Json.bool false, r)
      | _ => none
    else if c = '"' then
      match pStringChars rest with
      | some (s, r) => some (Json.str (String.mk s), r)
      | none => none
    else if c = '-' then
      match pNum rest with
      | some (n, r) => some (Json.num (-(Int.ofNat n)), r)
      | none => none
    else if isDigit c then
      match pNum (c :: rest) with
      | some (n, r) => some (Json.num (Int.ofNat n), r)
      | none => none
    else if c = '[' then
      match rest with
      | [] => none
      | c2 :: r2 =>
        if c2 = ']' then some (Json.arr [], r2)
        else
          match pElems fuel (c2 :: r2) with
          | some (es, r) => some (Json.arr es, r)
          | none => none
    else if c = lbrace then
      match rest with
      | [] => none
      | c2 :: r2 =>
        if c2 = rbrace then some (Json.obj [], r2)
        else
          match pFields fuel (c2 :: r2) with
          | some (fs, r) => some (Json.obj fs, r)
          | none => none
    else none

/-- Parse one or more comma-separated array elements up to the closing
bracket. -/
def pElems : Nat → List Char → Option (List Json × List Char)
  | 0, _ => none
  | fuel + 1, input =>
    match pVal fuel input with
    | some (e, r) =>
      match r with
      | ',' :: r2 =>
        (match pElems fuel r2 with
         | some (es, r3) => some (e :: es, r3)
         | none => none)
      | ']' :: r2 => some ([e], r2)
      | _ => none
    | none => none

/-- Parse one or more comma-separated object members up to the closing
brace. -/
def pFields : Nat → List Char → Option (List (String × Json) × List Char)
  | 0, _ => none
  | fuel + 1, input =>
    match input with
    | [] => none
    | c :: rest =>
      if c = '"' then
        match pStringChars rest with
        | some (k, r) =>
          match r with
          | ':' :: r2 =>
            (match pVal fuel r2 with
             | some (v, r3) =>
               match r3 with
               | [] => none
               | c4 :: r4 =>
                 if c4 = ',' then
                   (match pFields fuel r4 with
                    | some (fs, r5) => some ((String.mk k, v) :: fs, r5)
                    | none => none)
                 else if c4 = rbrace then some ([(String.mk k, v)], r4)
                 else none
             | none => none)
          | _ => none
        | none => none
      else none

end

/-- JSON.parse model: parse the whole frame; trailing content is a parse
error (throws in JS, `none` here). -/
def jparse (s : String) : Option Json :=
  match pVal (s.data.length + 1) s.data with
  | some (j, []) => some j
  | _ => none

/-- The try block of handleMessage: JSON.parse, the `data.type` accesses
(which throw on a parsed `null`), the ping fast path, then handler
dispatch.  Returns the events emitted before leaving the block and
whether the block threw. -/
def messageBody (ws : Handle) (hs : Handlers) (clientId : String) (now : Nat) (raw : String) :
    List Event × Bool :=
  match jparse raw with
  | none => ([], true)
  | some d =>
    match d with
    | Json.null => ([], true)
    | _ =>
      let ty := jget d "type"
      let dd := jget d "data"
      if isPing ty then
        if ws.sendOk then ([Event.sent ws.id (pongEnvelope now)], false)
        else ([Event.sendFailed ws.id], true)
      else dispatchHandlers hs ty dd now clientId

/-- handleMessage: resolve the clientId from the handle metadata, run the
try block; on a throw, log and attempt one error-envelope reply (whose own
failure is only logged).  The registry is never touched. -/
def handleMessage (st : BridgeState) (ws : Handle) (hs : Handlers) (raw : String) (now : Nat) :
    BridgeState × List Event :=
  let clientId := resolveClientId ws
  let r := messageBody ws hs clientId now raw
  if r.2 then
    let errEvs := if ws.sendOk then [Event.sent ws.id (errorEnvelope now)]
                  else [Event.sendFailed ws.id, Event.warn]
    (st, r.1 ++ [Event.warn] ++ errEvs)
  else (st, r.1)

/-! ## Derived observations and fixtures -/

/-- Fold a sequence of connection-opened events with no intervening
disconnects, collecting the clientId assigned at each open. -/
def openSeqIds (st : BridgeState) (hs : Handlers) :
    List (Handle × Nat × String) → BridgeState × List String
  | [] => (st, [])
  | (ws, now, rand) :: rest =>
    let r := openSeqIds (handleOpen st ws hs now rand).1 hs rest
    (r.1, generateClientId now rand :: r.2)

/-- Successful writes in a trace, in order. -/
def deliveries : List Event → List (Nat × Json)
  | [] => []
  | Event.sent i p :: rest => (i, p) :: deliveries rest
  | _ :: rest => deliveries rest

/-- Connections against which a write was attempted (successful or
throwing), in order. -/
def writeAttempts : List Event → List Nat
  | [] => []
  | Event.sent i _ :: rest => i :: writeAttempts rest
  | Event.sendFailed i :: rest => i :: writeAttempts rest
  | _ :: rest => writeAttempts rest

/-- A handler set with no slots set. -/
def noHandlers : Handlers := ⟨false, false, false, false, false, false⟩

/-- A handler set with every slot set and none throwing. -/
def allHandlers : Handlers := ⟨true, false, true, false, true, true⟩

/-- A handler set whose onMessage slot is set and throws. -/
def hsThrow : Handlers := ⟨true, true, true, false, false, false⟩

/-- Concrete connected handles for evaluations: open with working writes,
open with throwing writes, and closed. -/
def wsOpenOk : Handle := ⟨1, 1, true, some ⟨"a", 0⟩⟩

def wsOpenBad : Handle := ⟨2, 1, false, some ⟨"b", 0⟩⟩

def wsClosed : Handle := ⟨3, 0, true, some ⟨"c", 0⟩⟩

/-- A handle fresh from the transport whose welcome write will fail. -/
def wsNoWelcome : Handle := ⟨4, 1, false, none⟩

/-- A running server with the three handles registered. -/
def fixState : BridgeState :=
  ⟨true, [("b", wsOpenBad), ("a", wsOpenOk), ("c", wsClosed)], 3001, "localhost"⟩

/-- The continuation after a serialized number is never another digit
(it is empty or starts with a delimiter); readDigits stops there. -/
def noDigitStart : List Char → Prop
  | [] => True
  | c :: _ => isDigit c = false

/-! ## Claims -/

/-- C1: the spec requires the id generator to guarantee uniqueness, but
generateClientId is `client_` + Date.now() + `_` + Math.random() suffix.
Two connection-opened events in the same millisecond with an identical
random suffix are assigned the same clientId, and Map.set overwrites, so
after N = 2 opens the registry holds 1 entry and the assigned ids are not
pairwise distinct.  This evaluates handleOpen on that failing input. -/
theorem C1_duplicate_ids_collapse_registry :
    (openSeqIds ⟨true, [], 3001, "localhost"⟩ noHandlers
        [(⟨1, 1, true, none⟩, 0, "a"), (⟨2, 1, true, none⟩, 0, "a")]).2 =
      ["client_0_a", "client_0_a"] ∧
    (openSeqIds ⟨true, [], 3001, "localhost"⟩ noHandlers
        [(⟨1, 1, true, none⟩, 0, "a"), (⟨2, 1, true, none⟩, 0, "a")]).1.clients.length = 1 :=
  ⟨rfl, rfl⟩

/-- C2 counterexample: the welcome-message send path of handleOpen
discovers a write failure (the trace records the failed write and the
warning) yet returns with the new record still in the registry — the
claim's "removed before the send path returns" fails on this path. -/
theorem C2_welcome_failure_keeps_record :
    (handleOpen ⟨true, [], 3001, "localhost"⟩ ⟨1, 1, false, none⟩ noHandlers 0 "a").2 =
      [Event.sendFailed 1, Event.warn] ∧
    mapGet (handleOpen ⟨true, [], 3001, "localhost"⟩ ⟨1, 1, false, none⟩ noHandlers 0 "a").1.clients
      "client_0_a" = some ⟨1, 1, false, some ⟨"client_0_a", 0⟩⟩ :=
  ⟨rfl, rfl⟩

/-- C8: the claim says an unresolvable connection triggers neither removal
nor the disconnect callback, but handleError computes
`ws.data?.clientId || 'unknown'` and then guards with `if (clientId)`,
which the non-empty sentinel always passes: on an error event for a handle
with no metadata the code deletes the (absent) key "unknown" and invokes
onClientDisconnect("unknown").  This evaluates handleError on that
input. -/
theorem C8_unresolved_error_fires_disconnect :
    handleError ⟨true, [("client_5_x", ⟨7, 1, true, some ⟨"client_5_x", 5⟩⟩)], 3001, "localhost"⟩
        ⟨9, 1, true, none⟩ allHandlers =
      (⟨true, [("client_5_x", ⟨7, 1, true, some ⟨"client_5_x", 5⟩⟩)], 3001, "localhost"⟩,
       [Event.onClientDisconnect "unknown"]) :=
  rfl

/-! ## Registry and broadcast-loop lemmas -/

theorem sendLoop_spec (p : Json) (m : List (String × Handle)) :
    (sendLoop p m).1 = m.filter (fun e => if e.2.readyState = 1 then e.2.sendOk else true) ∧
    deliveries (sendLoop p m).2 =
      (m.filter (fun e => if e.2.readyState = 1 then e.2.sendOk else false)).map
        (fun e => (e.2.id, p)) ∧
    writeAttempts (sendLoop p m).2 =
      (m.filter (fun e => decide (e.2.readyState = 1))).map (fun e => e.2.id) := by
  induction m with
  | nil => simp [sendLoop, deliveries, writeAttempts]
  | cons hd tl ih =>
    obtain ⟨cid, ws⟩ := hd
    obtain ⟨ih1, ih2, ih3⟩ := ih
    by_cases h1 : ws.readyState = 1
    · by_cases h2 : ws.sendOk = true
      · simp [sendLoop, h1, h2, deliveries, writeAttempts, List.filter_cons, ih1, ih2, ih3]
      · simp only [Bool.not_eq_true] at h2
        simp [sendLoop, h1, h2, deliveries, writeAttempts, List.filter_cons, ih1, ih2, ih3]
    · simp [sendLoop, h1, deliveries, writeAttempts, List.filter_cons, ih1, ih2, ih3]

theorem mapGet_mapSet_same (m : List (String × Handle)) (k : String) (v : Handle) :
    mapGet (mapSet m k v) k = some v := by
  induction m with
  | nil => simp [mapSet, mapGet]
  | cons hd tl ih =>
    obtain ⟨k0, v0⟩ := hd
    by_cases h : k0 = k
    · simp [mapSet, mapGet, h]
    · simp [mapSet, mapGet, h, ih]

theorem mapGet_none_of_not_mem (m : List (String × Handle)) (k : String)
    (h : k ∉ m.map Prod.fst) : mapGet m k = none := by
  induction m with
  | nil => rfl
  | cons hd tl ih =>
    obtain ⟨k0, v0⟩ := hd
    simp only [List.map_cons, List.mem_cons, not_or] at h
    have hne : ¬ k0 = k := fun hh => h.1 hh.symm
    simp [mapGet, hne, ih h.2]

theorem mapGet_filter_eq_none (pred : String × Handle → Bool) (m : List (String × Handle))
    (k : String) (ws : Handle) (hnd : (m.map Prod.fst).Nodup)
    (hget : mapGet m k = some ws) (hp : pred (k, ws) = false) :
    mapGet (m.filter pred) k = none := by
  induction m with
  | nil => simp [mapGet] at hget
  | cons hd tl ih =>
    obtain ⟨k0, v0⟩ := hd
    simp only [List.map_cons, List.nodup_cons] at hnd
    by_cases h : k0 = k
    · subst h
      have hv : v0 = ws := by simpa [mapGet] using hget
      subst hv
      have hnm : k0 ∉ (tl.filter pred).map Prod.fst := by
        intro hmem
        exact hnd.1 (List.map_subset Prod.fst (List.filter_subset' tl) hmem)
      simp [List.filter_cons, hp, mapGet_none_of_not_mem _ _ hnm]
    · simp only [mapGet, if_neg h] at hget
      have := ih hnd.2 hget
      by_cases hkeep : pred (k0, v0) = true
      · simp [List.filter_cons, hkeep, mapGet, h, this]
      · simp only [Bool.not_eq_true] at hkeep
        simp [List.filter_cons, hkeep, this]

theorem mapGet_mapDelete_self (m : List (String × Handle)) (k : String)
    (hnd : (m.map Prod.fst).Nodup) : mapGet (mapDelete m k) k = none := by
  induction m with
  | nil => rfl
  | cons hd tl ih =>
    obtain ⟨k0, v0⟩ := hd
    simp only [List.map_cons, List.nodup_cons] at hnd
    by_cases h : k0 = k
    · subst h
      simp [mapDelete, mapGet_none_of_not_mem _ _ hnd.1]
    · simp [mapDelete, mapGet, h, ih hnd.2]

/-! ## Serializer/parser round-trip lemmas -/


theorem pStringChars_escapeList (s rest : List Char) :
    pStringChars (escapeList s ++ ('"' :: rest)) = some (s, rest) := by
  induction s with
  | nil => simp [escapeList, pStringChars.eq_def]
  | cons c cs ih =>
    by_cases hq : c = '"'
    · subst hq
      have h2 : escapeList ('"' :: cs) ++ ('"' :: rest) =
          '\\' :: ('"' :: (escapeList cs ++ ('"' :: rest))) := by
        simp [escapeList, escapeChar]
      rw [h2, pStringChars.eq_def]
      simp [ih]
    · by_cases hb : c = '\\'
      · subst hb
        have h2 : escapeList ('\\' :: cs) ++ ('"' :: rest) =
            '\\' :: ('\\' :: (escapeList cs ++ ('"' :: rest))) := by
          simp [escapeList, escapeChar]
        rw [h2, pStringChars.eq_def]
        simp [ih]
      · have h2 : escapeList (c :: cs) ++ ('"' :: rest) =
            c :: (escapeList cs ++ ('"' :: rest)) := by
          simp [escapeList, escapeChar, hq, hb]
        rw [h2, pStringChars.eq_def]
        simp [hq, hb, ih]

theorem isDigit_digitChar (k : Nat) (h : k < 10) : isDigit (digitChar k) = true := by
  interval_cases k <;> decide

theorem digitVal_digitChar (k : Nat) (h : k < 10) : digitVal (digitChar k) = k := by
  interval_cases k <;> decide

theorem natToDigitsAux_cons (fuel : Nat) :
    ∀ n, n < fuel → ∃ c cs, natToDigitsAux fuel n = c :: cs ∧ isDigit c = true := by
  induction fuel with
  | zero => intro n h; omega
  | succ fuel ih =>
    intro n h
    by_cases h10 : n < 10
    · exact ⟨digitChar n, [], by simp [natToDigitsAux, h10], isDigit_digitChar n h10⟩
    · have hlt : n / 10 < fuel := by
        have := Nat.div_lt_self (show 0 < n by omega) (show 1 < 10 by omega)
        omega
      obtain ⟨c, cs, hcons, hdig⟩ := ih (n / 10) hlt
      exact ⟨c, cs ++ [digitChar (n % 10)], by simp [natToDigitsAux, h10, hcons], hdig⟩

theorem readDigits_natToDigitsAux (fuel : Nat) :
    ∀ n acc rest, n < fuel →
      readDigits (natToDigitsAux fuel n ++ rest) acc =
        readDigits rest (acc * 10 ^ (natToDigitsAux fuel n).length + n) := by
  induction fuel with
  | zero => intro n acc rest h; omega
  | succ fuel ih =>
    intro n acc rest h
    by_cases h10 : n < 10
    · simp [natToDigitsAux, h10, readDigits, isDigit_digitChar n h10, digitVal_digitChar n h10]
    · have hlt : n / 10 < fuel := by
        have := Nat.div_lt_self (show 0 < n by omega) (show 1 < 10 by omega)
        omega
      have hm : n % 10 < 10 := Nat.mod_lt _ (by omega)
      simp only [natToDigitsAux, if_neg h10, List.append_assoc, List.cons_append,
        List.nil_append]
      rw [ih (n / 10) acc (digitChar (n % 10) :: rest) hlt]
      simp only [readDigits, isDigit_digitChar _ hm, digitVal_digitChar _ hm,
        eq_self_iff_true, if_true, List.length_append, List.length_cons, List.length_nil]
      congr 1
      generalize (natToDigitsAux fuel (n / 10)).length = L
      rw [pow_succ]
      generalize (10 : Nat) ^ L = P
      have hdm : n / 10 * 10 + n % 10 = n := by omega
      calc (acc * P + n / 10) * 10 + n % 10
          = acc * (P * 10) + (n / 10 * 10 + n % 10) := by ring
        _ = acc * (P * 10) + n := by rw [hdm]

theorem readDigits_stop (rest : List Char) (acc : Nat) (h : noDigitStart rest) :
    readDigits rest acc = (acc, rest) := by
  cases rest with
  | nil => rfl
  | cons c cs =>
    have h' : isDigit c = false := h
    simp [readDigits, h']

theorem pNum_natToDigits (n : Nat) (rest : List Char) (h : noDigitStart rest) :
    pNum (natToDigits n ++ rest) = some (n, rest) := by
  obtain ⟨c, cs, hcons, hdig⟩ := natToDigitsAux_cons (n + 1) n (Nat.lt_succ_self n)
  have hrd : readDigits (natToDigits n ++ rest) 0 = (n, rest) := by
    rw [natToDigits, readDigits_natToDigitsAux (n + 1) n 0 rest (Nat.lt_succ_self n)]
    simpa using readDigits_stop rest n h
  rw [natToDigits, hcons] at hrd
  rw [natToDigits, hcons]
  simp only [List.cons_append, readDigits, hdig, if_pos rfl] at hrd
  simp only [List.cons_append, pNum, hdig, if_pos rfl]
  simpa using hrd


theorem char_ne_of_isDigit (c : Char) (h : isDigit c = true) :
    c ≠ 'n' ∧ c ≠ 't' ∧ c ≠ 'f' ∧ c ≠ '"' ∧ c ≠ '-' ∧ c ≠ '[' ∧ c ≠ lbrace ∧ c ≠ ']' := by
  refine ⟨?_, ?_, ?_, ?_, ?_, ?_, ?_, ?_⟩ <;> rintro rfl <;> revert h <;> decide

set_option maxHeartbeats 1000000 in
theorem pVal_digit (fuel : Nat) (c : Char) (X : List Char) (h : isDigit c = true) :
    pVal (fuel + 1) (c :: X) =
      (match pNum (c :: X) with
       | some (n, r) => some (Json.num (Int.ofNat n), r)
       | none => none) := by
  obtain ⟨h1, h2, h3, h4, h5, _, _, _⟩ := char_ne_of_isDigit c h
  simp only [pVal, if_neg h1, if_neg h2, if_neg h3, if_neg h4, if_neg h5, if_pos h]

-- parser unfolds
theorem pElems_succ (fuel : Nat) (input : List Char) :
    pElems (fuel + 1) input =
      (match pVal fuel input with
       | some (e, r) =>
         match r with
         | ',' :: r2 =>
           (match pElems fuel r2 with
            | some (es, r3) => some (e :: es, r3)
            | none => none)
         | ']' :: r2 => some ([e], r2)
         | _ => none
       | none => none) := rfl

theorem pFields_quote (fuel : Nat) (Y : List Char) :
    pFields (fuel + 1) ('"' :: Y) =
      (match pStringChars Y with
       | some (k1, r) =>
         match r with
         | ':' :: r2 =>
           (match pVal fuel r2 with
            | some (v1, r3) =>
              match r3 with
              | [] => none
              | c4 :: r4 =>
                if c4 = ',' then
                  (match pFields fuel r4 with
                   | some (fs1, r5) => some ((String.mk k1, v1) :: fs1, r5)
                   | none => none)
                else if c4 = rbrace then some ([(String.mk k1, v1)], r4)
                else none
            | none => none)
         | _ => none
       | none => none) := rfl

theorem jstring_head (j : Json) : ∃ c cs, jstring j = c :: cs ∧ c ≠ ']' := by
  cases j with
  | null => exact ⟨'n', _, rfl, by decide⟩
  | bool b =>
    cases b with
    | false => exact ⟨'f', _, rfl, by decide⟩
    | true => exact ⟨'t', _, rfl, by decide⟩
  | num n =>
    cases n with
    | ofNat m =>
      obtain ⟨c, cs, hcons, hdig⟩ := natToDigitsAux_cons (m + 1) m (Nat.lt_succ_self m)
      refine ⟨c, cs, ?_, ?_⟩
      · show natToDigits m = c :: cs
        rw [natToDigits, hcons]
      · exact (char_ne_of_isDigit c hdig).2.2.2.2.2.2.2
    | negSucc m => exact ⟨'-', _, rfl, by decide⟩
  | str s => exact ⟨'"', _, rfl, by decide⟩
  | arr es => exact ⟨'[', _, rfl, by decide⟩
  | obj fs => exact ⟨lbrace, _, rfl, by decide⟩


theorem noDigitStart_cons (c : Char) (X : List Char) (h : isDigit c = false) :
    noDigitStart (c :: X) := h

theorem pVal_quote (fuel : Nat) (X : List Char) :
    pVal (fuel + 1) ('"' :: X) =
      (match pStringChars X with
       | some (s, r) => some (Json.str (String.mk s), r)
       | none => none) := rfl

theorem pVal_lbracket (fuel : Nat) (c2 : Char) (r2 : List Char) :
    pVal (fuel + 1) ('[' :: (c2 :: r2)) =
      (if c2 = ']' then some (Json.arr [], r2)
       else match pElems fuel (c2 :: r2) with
            | some (es, r) => some (Json.arr es, r)
            | none => none) := rfl

theorem pVal_lbrace (fuel : Nat) (c2 : Char) (r2 : List Char) :
    pVal (fuel + 1) (lbrace :: (c2 :: r2)) =
      (if c2 = rbrace then some (Json.obj [], r2)
       else match pFields fuel (c2 :: r2) with
            | some (fs, r) => some (Json.obj fs, r)
            | none => none) := rfl

theorem pVal_roundtrip : ∀ fuel : Nat,
    (∀ j rest, (jstring j).length ≤ fuel → noDigitStart rest →
      pVal fuel (jstring j ++ rest) = some (j, rest)) ∧
    (∀ e es rest, (jstringElems (e :: es)).length + 1 ≤ fuel →
      pElems fuel (jstringElems (e :: es) ++ (']' :: rest)) = some (e :: es, rest)) ∧
    (∀ k v fs rest, (jstringFields ((k, v) :: fs)).length + 1 ≤ fuel →
      pFields fuel (jstringFields ((k, v) :: fs) ++ (rbrace :: rest)) = some ((k, v) :: fs, rest)) := by
  intro fuel
  induction fuel with
  | zero =>
    refine ⟨?_, ?_, ?_⟩
    · intro j rest hlen _
      obtain ⟨c, cs, hcons, _⟩ := jstring_head j
      rw [hcons] at hlen
      simp at hlen
    · intro e es rest hlen; omega
    · intro k v fs rest hlen; omega
  | succ fuel ih =>
    obtain ⟨ihA, ihB, ihC⟩ := ih
    refine ⟨?_, ?_, ?_⟩
    · intro j rest hlen hnd
      cases j with
      | null => rfl
      | bool b => cases b <;> rfl
      | num n =>
        cases n with
        | ofNat m =>
          obtain ⟨c, cs, hcons, hdig⟩ := natToDigitsAux_cons (m + 1) m (Nat.lt_succ_self m)
          have hp : pNum (natToDigits m ++ rest) = some (m, rest) := pNum_natToDigits m rest hnd
          have hN : jstring (Json.num (Int.ofNat m)) = natToDigits m := rfl
          rw [hN, natToDigits, hcons, List.cons_append, pVal_digit fuel c (cs ++ rest) hdig]
          rw [natToDigits, hcons, List.cons_append] at hp
          rw [hp]
        | negSucc m =>
          have hp : pNum (natToDigits (m + 1) ++ rest) = some (m + 1, rest) :=
            pNum_natToDigits (m + 1) rest hnd
          have h0 : pVal (fuel + 1) (jstring (Json.num (Int.negSucc m)) ++ rest) =
              (match pNum (natToDigits (m + 1) ++ rest) with
               | some (n, r) => some (Json.num (-(Int.ofNat n)), r)
               | none => none) := rfl
          rw [h0, hp]
          simp [Int.negSucc_eq]
      | str s =>
        have h0 : jstring (Json.str s) ++ rest =
            '"' :: (escapeList s.data ++ ('"' :: rest)) := by
          show ('"' :: (escapeList s.data ++ ['"'])) ++ rest = _
          simp
        rw [h0, pVal_quote, pStringChars_escapeList]
      | arr es =>
        cases es with
        | nil => rfl
        | cons e es2 =>
          obtain ⟨c, cs, hcons, hcne⟩ := jstring_head e
          have hlen2 : (jstringElems (e :: es2)).length + 1 ≤ fuel := by
            have h0 : jstring (Json.arr (e :: es2)) =
                '[' :: (jstringElems (e :: es2) ++ [']']) := rfl
            rw [h0] at hlen
            simp at hlen
            omega
          have hZ : ∃ Z, jstringElems (e :: es2) ++ (']' :: rest) = c :: Z := by
            cases es2 with
            | nil =>
              exact ⟨cs ++ (']' :: rest),
                by simp [show jstringElems [e] = jstring e from rfl, hcons]⟩
            | cons e2 es3 =>
              exact ⟨cs ++ ((',' :: jstringElems (e2 :: es3)) ++ (']' :: rest)),
                by simp [show jstringElems (e :: e2 :: es3) =
                      jstring e ++ (',' :: jstringElems (e2 :: es3)) from rfl, hcons]⟩
          obtain ⟨Z, hZ⟩ := hZ
          have h1 : jstring (Json.arr (e :: es2)) ++ rest =
              '[' :: (jstringElems (e :: es2) ++ (']' :: rest)) := by
            show ('[' :: (jstringElems (e :: es2) ++ [']'])) ++ rest = _
            simp
          rw [h1, hZ, pVal_lbracket, if_neg hcne, ← hZ, ihB e es2 rest hlen2]
      | obj fs =>
        cases fs with
        | nil => rfl
        | cons f fs2 =>
          obtain ⟨k, v⟩ := f
          have hlen2 : (jstringFields ((k, v) :: fs2)).length + 1 ≤ fuel := by
            have h0 : jstring (Json.obj ((k, v) :: fs2)) =
                lbrace :: (jstringFields ((k, v) :: fs2) ++ [rbrace]) := rfl
            rw [h0] at hlen
            simp at hlen
            omega
          have hZ : ∃ Z, jstringFields ((k, v) :: fs2) ++ (rbrace :: rest) = '"' :: Z := by
            cases fs2 with
            | nil =>
              exact ⟨(escapeList k.data ++ ('"' :: ':' :: jstring v)) ++ (rbrace :: rest),
                by simp [show jstringFields [(k, v)] =
                      '"' :: (escapeList k.data ++ ('"' :: ':' :: jstring v)) from rfl]⟩
            | cons f2 fs3 =>
              exact ⟨(escapeList k.data ++ ('"' :: ':' :: jstring v)) ++
                      ((',' :: jstringFields (f2 :: fs3)) ++ (rbrace :: rest)),
                by simp [show jstringFields ((k, v) :: f2 :: fs3) =
                      ('"' :: (escapeList k.data ++ ('"' :: ':' :: jstring v))) ++
                        (',' :: jstringFields (f2 :: fs3)) from rfl]⟩
          obtain ⟨Z, hZ⟩ := hZ
          have h1 : jstring (Json.obj ((k, v) :: fs2)) ++ rest =
              lbrace :: (jstringFields ((k, v) :: fs2) ++ (rbrace :: rest)) := by
            show (lbrace :: (jstringFields ((k, v) :: fs2) ++ [rbrace])) ++ rest = _
            simp
          rw [h1, hZ, pVal_lbrace, if_neg (show ¬('"' : Char) = rbrace by decide), ← hZ,
            ihC k v fs2 rest hlen2]
    · intro e es rest hlen
      have hone : 1 ≤ (jstring e).length := by
        obtain ⟨c, cs, hcons, _⟩ := jstring_head e
        rw [hcons]
        simp
      cases es with
      | nil =>
        have hA : (jstring e).length ≤ fuel := by
          have h0 : jstringElems [e] = jstring e := rfl
          rw [h0] at hlen
          omega
        have h1 : jstringElems [e] ++ (']' :: rest) = jstring e ++ (']' :: rest) := rfl
        rw [pElems_succ, h1, ihA e (']' :: rest) hA (noDigitStart_cons _ _ (by decide))]
        rfl
      | cons e2 es3 =>
        have h0 : jstringElems (e :: e2 :: es3) =
            jstring e ++ (',' :: jstringElems (e2 :: es3)) := rfl
        have hA : (jstring e).length ≤ fuel := by
          rw [h0] at hlen
          simp at hlen
          omega
        have hB2 : (jstringElems (e2 :: es3)).length + 1 ≤ fuel := by
          rw [h0] at hlen
          simp at hlen
          omega
        have h1 : jstringElems (e :: e2 :: es3) ++ (']' :: rest) =
            jstring e ++ (',' :: (jstringElems (e2 :: es3) ++ (']' :: rest))) := by
          rw [h0]
          simp
        have hq := ihB e2 es3 rest hB2
        rw [pElems_succ, h1, ihA e _ hA (noDigitStart_cons _ _ (by decide))]
        simp only [hq]
    · intro k v fs rest hlen
      have hone : 1 ≤ (jstring v).length := by
        obtain ⟨c, cs, hcons, _⟩ := jstring_head v
        rw [hcons]
        simp
      cases fs with
      | nil =>
        have h0 : jstringFields [(k, v)] =
            '"' :: (escapeList k.data ++ ('"' :: ':' :: jstring v)) := rfl
        have hA : (jstring v).length ≤ fuel := by
          rw [h0] at hlen
          simp at hlen
          omega
        have h1 : jstringFields [(k, v)] ++ (rbrace :: rest) =
            '"' :: (escapeList k.data ++ ('"' :: (':' :: (jstring v ++ (rbrace :: rest))))) := by
          rw [h0]
          simp
        have hv := ihA v (rbrace :: rest) hA (noDigitStart_cons _ _ (by decide))
        rw [h1, pFields_quote, pStringChars_escapeList]
        simp only [hv, if_neg (show ¬rbrace = ',' by decide), if_true]
      | cons f2 fs3 =>
        obtain ⟨k2, v2⟩ := f2
        have h0 : jstringFields ((k, v) :: (k2, v2) :: fs3) =
            ('"' :: (escapeList k.data ++ ('"' :: ':' :: jstring v))) ++
              (',' :: jstringFields ((k2, v2) :: fs3)) := rfl
        have hA : (jstring v).length ≤ fuel := by
          rw [h0] at hlen
          simp at hlen
          omega
        have hC2 : (jstringFields ((k2, v2) :: fs3)).length + 1 ≤ fuel := by
          rw [h0] at hlen
          simp at hlen
          omega
        have h1 : jstringFields ((k, v) :: (k2, v2) :: fs3) ++ (rbrace :: rest) =
            '"' :: (escapeList k.data ++
              ('"' :: (':' :: (jstring v ++
                (',' :: (jstringFields ((k2, v2) :: fs3) ++ (rbrace :: rest))))))) := by
          rw [h0]
          simp
        have hv := ihA v (',' :: (jstringFields ((k2, v2) :: fs3) ++ (rbrace :: rest))) hA
          (noDigitStart_cons _ _ (by decide))
        have hq := ihC k2 v2 fs3 rest hC2
        rw [h1, pFields_quote, pStringChars_escapeList]
        simp only [hv, hq, if_true]

/-- Decoding inverts serialization: parsing the serialized form of any
JSON value yields that value back. -/
theorem jparse_jstring (j : Json) : jparse (String.mk (jstring j)) = some j := by
  have h := (pVal_roundtrip ((jstring j).length + 1)).1 j [] (by omega) trivial
  rw [List.append_nil] at h
  have h2 : pVal ((String.mk (jstring j)).data.length + 1) (String.mk (jstring j)).data =
      some (j, []) := h
  simp only [jparse, h2]

/-! ## Remaining claims -/

/-- C3: for an inbound frame whose payload is not valid JSON (and a handle
whose write succeeds), handleMessage invokes neither onMessage nor
onCustomMessage, sends back exactly one envelope — the fixed
"Invalid message format" error envelope — to the originating connection
only, and leaves the registry (hence the sender's registration)
unchanged. -/
theorem C3_malformed_frame_error_reply (st : BridgeState) (ws : Handle) (hs : Handlers)
    (raw : String) (now : Nat) (hparse : jparse raw = none) (hok : ws.sendOk = true) :
    handleMessage st ws hs raw now = (st, [Event.warn, Event.sent ws.id (errorEnvelope now)]) := by
  simp [handleMessage, messageBody, hparse, hok]

theorem C3_malformed_frame_error_reply_witness :
    jparse "x" = none ∧
    handleMessage fixState wsOpenOk noHandlers "x" 5 =
      (fixState, [Event.warn, Event.sent 1 (errorEnvelope 5)]) :=
  ⟨rfl, C3_malformed_frame_error_reply fixState wsOpenOk noHandlers "x" 5 rfl rfl⟩

/-- C4: for an inbound frame that parses to an object whose type field is
the string "ping" (and a handle whose write succeeds), handleMessage sends
exactly one pong envelope — whose payload carries the reply timestamp — to
the originating connection only, and invokes neither onMessage nor
onCustomMessage. -/
theorem C4_ping_pong (st : BridgeState) (ws : Handle) (hs : Handlers) (raw : String) (now : Nat)
    (d : Json) (hparse : jparse raw = some d)
    (hping : jget d "type" = some (Json.str "ping")) (hok : ws.sendOk = true) :
    handleMessage st ws hs raw now = (st, [Event.sent ws.id (pongEnvelope now)]) := by
  cases d with
  | null => simp [jget] at hping
  | bool b => simp [jget] at hping
  | num n => simp [jget] at hping
  | str s => simp [jget] at hping
  | arr es => simp [jget] at hping
  | obj fs =>
    simp only [jget] at hping
    simp [handleMessage, messageBody, hparse, jget, hping, isPing, hok]

theorem C4_ping_pong_witness :
    jparse "\x7b\"type\":\"ping\"\x7d" = some (Json.obj [("type", Json.str "ping")]) ∧
    handleMessage fixState wsOpenOk allHandlers "\x7b\"type\":\"ping\"\x7d" 5 =
      (fixState, [Event.sent 1 (pongEnvelope 5)]) :=
  ⟨rfl, C4_ping_pong fixState wsOpenOk allHandlers "\x7b\"type\":\"ping\"\x7d" 5
    (Json.obj [("type", Json.str "ping")]) rfl rfl rfl⟩

/-- C5: on a running server, send writes the broadcast envelope — which
has no clientId field — exactly to the registered connections whose
readyState is open at call time (attempts equal the open connections, in
registry order; successful deliveries are the open connections whose write
does not throw) and to no other connection; each connection whose write
throws is removed, and only those, while delivery to the remaining
connections continues. -/
theorem C5_broadcast_delivery (st : BridgeState) (d : Json) (ty : String) (now : Nat)
    (hrun : st.serverRunning = true) :
    (send st d ty now).1.clients =
      st.clients.filter (fun e => if e.2.readyState = 1 then e.2.sendOk else true) ∧
    deliveries (send st d ty now).2 =
      (st.clients.filter (fun e => if e.2.readyState = 1 then e.2.sendOk else false)).map
        (fun e => (e.2.id, broadcastEnvelope d ty now)) ∧
    writeAttempts (send st d ty now).2 =
      (st.clients.filter (fun e => decide (e.2.readyState = 1))).map (fun e => e.2.id) ∧
    jget (broadcastEnvelope d ty now) "clientId" = none := by
  have hsp := sendLoop_spec (broadcastEnvelope d ty now) st.clients
  refine ⟨?_, ?_, ?_, ?_⟩
  · simpa [send, hrun] using hsp.1
  · simpa [send, hrun] using hsp.2.1
  · simpa [send, hrun] using hsp.2.2
  · simp [broadcastEnvelope, envelope, jget, lookupField]

theorem C5_broadcast_delivery_witness :
    fixState.serverRunning = true ∧
    deliveries (send fixState Json.null "evt" 7).2 = [(1, broadcastEnvelope Json.null "evt" 7)] ∧
    writeAttempts (send fixState Json.null "evt" 7).2 = [2, 1] ∧
    (send fixState Json.null "evt" 7).1.clients = [("a", wsOpenOk), ("c", wsClosed)] ∧
    jget (broadcastEnvelope Json.null "evt" 7) "clientId" = none := by
  have h := C5_broadcast_delivery fixState Json.null "evt" 7 rfl
  exact ⟨rfl, h.2.1, h.2.2.1, h.1, h.2.2.2⟩

/-- C6: sendToClient is a warn-only no-op (no write, no state change) when
the server is not running or the clientId is unknown; for a registered id
it writes exactly one envelope — whose clientId field equals the given
id — to that connection only, and only if the handle's readyState is open
(a closed handle gets nothing, silently); a throwing write removes exactly
that connection from the registry. -/
theorem C6_sendToClient_behavior (st : BridgeState) (cid : String) (d : Json) (ty : String)
    (now : Nat) :
    (st.serverRunning = false → sendToClient st cid d ty now = (st, [Event.warn])) ∧
    (st.serverRunning = true → mapGet st.clients cid = none →
      sendToClient st cid d ty now = (st, [Event.warn])) ∧
    (∀ ws, st.serverRunning = true → mapGet st.clients cid = some ws →
      (ws.readyState = 1 → ws.sendOk = true →
        sendToClient st cid d ty now = (st, [Event.sent ws.id (unicastEnvelope cid d ty now)])) ∧
      (ws.readyState ≠ 1 → sendToClient st cid d ty now = (st, [])) ∧
      (ws.readyState = 1 → ws.sendOk = false →
        sendToClient st cid d ty now =
          ({ st with clients := mapDelete st.clients cid },
           [Event.sendFailed ws.id, Event.warn]))) ∧
    jget (unicastEnvelope cid d ty now) "clientId" = some (Json.str cid) := by
  refine ⟨?_, ?_, ?_, ?_⟩
  · intro h; simp [sendToClient, h]
  · intro h1 h2; simp [sendToClient, h1, h2]
  · intro ws h1 h2
    refine ⟨?_, ?_, ?_⟩
    · intro h3 h4; simp [sendToClient, h1, h2, h3, h4]
    · intro h3; simp [sendToClient, h1, h2, h3]
    · intro h3 h4; simp [sendToClient, h1, h2, h3, h4]
  · simp [unicastEnvelope, envelope, jget, lookupField]

theorem C6_sendToClient_behavior_witness :
    fixState.serverRunning = true ∧
    mapGet fixState.clients "a" = some wsOpenOk ∧
    sendToClient fixState "a" Json.null "evt" 7 =
      (fixState, [Event.sent 1 (unicastEnvelope "a" Json.null "evt" 7)]) := by
  have h := C6_sendToClient_behavior fixState "a" Json.null "evt" 7
  exact ⟨rfl, rfl, (h.2.2.1 wsOpenOk rfl rfl).1 rfl rfl⟩

/-- C7: after stop() on a running server the registry is empty and
getStatus reports not running, and every subsequent send or sendToClient
warns and returns with no write and no state change. -/
theorem C7_stop_quiesces (st : BridgeState) (hrun : st.serverRunning = true) :
    ((stop st).1.clients.length = 0) ∧
    ((getStatus (stop st).1).isRunning = false) ∧
    (∀ d ty now, send (stop st).1 d ty now = ((stop st).1, [Event.warn])) ∧
    (∀ cid d ty now, sendToClient (stop st).1 cid d ty now = ((stop st).1, [Event.warn])) := by
  have h1 : (stop st).1 = { st with serverRunning := false, clients := [] } := by
    simp [stop, hrun]
  refine ⟨?_, ?_, ?_, ?_⟩ <;> simp [h1, getStatus, send, sendToClient]

theorem C7_stop_quiesces_witness :
    ((stop fixState).1.clients.length = 0) ∧
    ((getStatus (stop fixState).1).isRunning = false) ∧
    (send (stop fixState).1 Json.null "message" 9 = ((stop fixState).1, [Event.warn])) ∧
    (sendToClient (stop fixState).1 "a" Json.null "message" 9 =
      ((stop fixState).1, [Event.warn])) := by
  have h := C7_stop_quiesces fixState rfl
  exact ⟨h.1, h.2.1, h.2.2.1 Json.null "message" 9, h.2.2.2 "a" Json.null "message" 9⟩

/-- C9: decoding (JSON-parsing) the serialized broadcast envelope that
send(data, type) writes yields an object whose type field equals the given
type and whose data field is structurally identical to the given data. -/
theorem C9_envelope_roundtrip (d : Json) (ty : String) (now : Nat) :
    jparse (String.mk (jstring (broadcastEnvelope d ty now))) = some (broadcastEnvelope d ty now) ∧
    jget (broadcastEnvelope d ty now) "type" = some (Json.str ty) ∧
    jget (broadcastEnvelope d ty now) "data" = some d := by
  refine ⟨jparse_jstring _, ?_, ?_⟩
  · simp [broadcastEnvelope, envelope, jget, lookupField]
  · simp [broadcastEnvelope, envelope, jget, lookupField]

/-- C10: when a well-formed frame is dispatched and the onMessage handler
throws, onCustomMessage is not invoked for that frame, the originating
client is sent the same fixed "Invalid message format" error envelope used
for parse failures, and handleMessage returns normally with the state
unchanged (the exception does not escape the inbound handler). -/
theorem C10_onMessage_throw_error_reply (st : BridgeState) (ws : Handle) (hs : Handlers)
    (raw : String) (now : Nat) (d : Json)
    (hparse : jparse raw = some d) (hnull : d ≠ Json.null)
    (hping : isPing (jget d "type") = false)
    (hset : hs.onMessageSet = true) (hthrow : hs.onMessageThrows = true)
    (hok : ws.sendOk = true) :
    handleMessage st ws hs raw now =
      (st, [Event.onMessage ⟨jget d "type", jget d "data", now, resolveClientId ws⟩,
            Event.warn, Event.sent ws.id (errorEnvelope now)]) := by
  cases d with
  | null => exact absurd rfl hnull
  | bool b => simp [handleMessage, messageBody, hparse, hping, dispatchHandlers, hset, hthrow, hok]
  | num n => simp [handleMessage, messageBody, hparse, hping, dispatchHandlers, hset, hthrow, hok]
  | str s => simp [handleMessage, messageBody, hparse, hping, dispatchHandlers, hset, hthrow, hok]
  | arr es => simp [handleMessage, messageBody, hparse, hping, dispatchHandlers, hset, hthrow, hok]
  | obj fs => simp [handleMessage, messageBody, hparse, hping, dispatchHandlers, hset, hthrow, hok]

theorem C10_onMessage_throw_error_reply_witness :
    jparse "\x7b\"type\":\"chat\"\x7d" = some (Json.obj [("type", Json.str "chat")]) ∧
    handleMessage fixState wsOpenOk hsThrow "\x7b\"type\":\"chat\"\x7d" 5 =
      (fixState, [Event.onMessage ⟨some (Json.str "chat"), none, 5, "a"⟩,
        Event.warn, Event.sent 1 (errorEnvelope 5)]) :=
  ⟨rfl, C10_onMessage_throw_error_reply fixState wsOpenOk hsThrow "\x7b\"type\":\"chat\"\x7d" 5
    (Json.obj [("type", Json.str "chat")]) rfl (fun h => Json.noConfusion h) rfl rfl rfl rfl⟩

/-- C2 amended: a write failure discovered by the broadcast send or by
sendToClient removes that connection's record before the call returns; a
write failure of the welcome message in handleOpen or of the pong/error
replies in handleMessage is only logged — handleOpen keeps the newly
registered record and handleMessage never changes the registry. -/
theorem C2_amended_removal_paths (st : BridgeState) (cid : String) (ws wsNew : Handle)
    (hs : Handlers) (d : Json) (ty : String) (now : Nat) (rand : String) (raw : String)
    (hnd : (st.clients.map Prod.fst).Nodup) (hrun : st.serverRunning = true)
    (hget : mapGet st.clients cid = some ws)
    (hopen : ws.readyState = 1) (hfail : ws.sendOk = false) :
    mapGet (send st d ty now).1.clients cid = none ∧
    mapGet (sendToClient st cid d ty now).1.clients cid = none ∧
    mapGet (handleOpen st wsNew hs now rand).1.clients (generateClientId now rand) =
      some { wsNew with wsData := some ⟨generateClientId now rand, now⟩ } ∧
    (handleMessage st wsNew hs raw now).1 = st := by
  refine ⟨?_, ?_, ?_, ?_⟩
  · have h1 := (sendLoop_spec (broadcastEnvelope d ty now) st.clients).1
    simp only [send, hrun, Bool.true_eq_false, if_false, h1]
    exact mapGet_filter_eq_none _ _ _ ws hnd hget (by simp [hopen, hfail])
  · simp only [sendToClient, hrun, Bool.true_eq_false, if_false, hget, hopen, if_pos rfl, hfail]
    simpa using mapGet_mapDelete_self st.clients cid hnd
  · simpa [handleOpen] using mapGet_mapSet_same st.clients (generateClientId now rand) _
  · unfold handleMessage
    by_cases h : (messageBody wsNew hs (resolveClientId wsNew) now raw).2 = true <;> simp [h]

theorem C2_amended_removal_paths_witness :
    (fixState.clients.map Prod.fst).Nodup ∧
    mapGet fixState.clients "b" = some wsOpenBad ∧
    mapGet (send fixState Json.null "evt" 7).1.clients "b" = none ∧
    mapGet (sendToClient fixState "b" Json.null "evt" 7).1.clients "b" = none ∧
    mapGet (handleOpen fixState wsNoWelcome noHandlers 7 "r").1.clients "client_7_r" =
      some ⟨4, 1, false, some ⟨"client_7_r", 7⟩⟩ ∧
    (handleMessage fixState wsNoWelcome noHandlers "x" 7).1 = fixState := by
  have h := C2_amended_removal_paths fixState "b" wsOpenBad wsNoWelcome noHandlers
    Json.null "evt" 7 "r" "x" (by decide) rfl rfl rfl rfl
  exact ⟨by decide, rfl, h.1, h.2.1, h.2.2.1, h.2.2.2⟩
